import Mathlib

/-!
A shallow embedding of the CHIP-8 interpreter core of `src/main.rs`
(`struct Chip8` with `push`, `pop`, `fetch`, `execute`, the timer-task
body of `main`, and the `from_file` constructor), together with proofs
about it.

Modelling conventions:
* `u8`/`u16` machine integers become `Nat` with explicit `% 256` /
  `% 65536` exactly where the Rust code wraps (release-mode wrapping
  semantics for the overflowing `program_counter` arithmetic).
* Rust's panicking behaviours (out-of-bounds array indexing, the
  `panic!` on an unrecognized opcode) and `std::process::exit(0)` are
  made explicit as an `Except` error channel, with one `Fault`
  constructor per distinct panic site.
* The single float-using instruction (FX33, binary-coded decimal) is
  embedded through an exact integer model of IEEE-754 binary32
  round-to-nearest-even division (see `rneDiv` below).
* The random byte consumed by CXNN is threaded in as an explicit
  argument `rnd`.
-/

namespace Chip8Spec

/-- The distinct terminal outcomes of the Rust interpreter: the explicit
`std::process::exit(0)` on opcode 0000, the `panic!` on an unrecognized
opcode (reporting the raw opcode value), and the panics produced by
out-of-bounds array indexing (stack overflow on `push`, stack-pointer
underflow on `pop`, memory/key indexing out of range). -/
inductive Fault where
  | halt
  | decodeErr (op : Nat)
  | stackOverflow
  | stackUnderflow
  | memOOB
deriving DecidableEq

/-- The machine state, mirroring `struct Chip8` in `src/main.rs`
field by field.  Fixed-size Rust arrays are modelled as functions from
`Nat`; all meaningful indices are below the array length and every
access the Rust code performs is bounds-checked in the embedding
exactly where Rust would panic. -/
structure Chip8 where
  memory : Nat → Nat
  stack : Nat → Nat
  registers : Nat → Nat
  program_counter : Nat
  stack_pointer : Nat
  index : Nat
  delay_timer : Nat
  sound_timer : Nat
  display : Nat → Bool
  keys : Nat → Bool

/-- The 80-byte font table `SPRITES` from `src/main.rs`, verbatim. -/
def SPRITES : List Nat :=
  [0xF0, 0x90, 0x90, 0x90, 0xF0,
   0x20, 0x60, 0x20, 0x20, 0x70,
   0xF0, 0x10, 0xF0, 0x80, 0xF0,
   0xF0, 0x10, 0xF0, 0x10, 0xF0,
   0x90, 0x90, 0xF0, 0x10, 0x10,
   0xF0, 0x80, 0xF0, 0x10, 0xF0,
   0xF0, 0x80, 0xF0, 0x90, 0xF0,
   0xF0, 0x10, 0x20, 0x40, 0x40,
   0xF0, 0x90, 0xF0, 0x90, 0xF0,
   0xF0, 0x90, 0xF0, 0x10, 0xF0,
   0xF0, 0x90, 0xF0, 0x90, 0x90,
   0xE0, 0x90, 0xE0, 0x90, 0xE0,
   0xF0, 0x80, 0x80, 0x80, 0xF0,
   0xE0, 0x90, 0x90, 0x90, 0xE0,
   0xF0, 0x80, 0xF0, 0x80, 0xF0,
   0xF0, 0x80, 0xF0, 0x80, 0x80]

/-- `Chip8::from_file`: zeroed state with the font table copied to
memory addresses 0–79, the program image copied starting at 0x200, and
`program_counter` set to `PC_START = 0x200`. -/
def fromImage (data : List Nat) : Chip8 where
  memory := fun a =>
    if a < 80 then SPRITES.getD a 0
    else if 512 ≤ a ∧ a < 512 + data.length then data.getD (a - 512) 0
    else 0
  stack := fun _ => 0
  registers := fun _ => 0
  program_counter := 512
  stack_pointer := 0
  index := 0
  delay_timer := 0
  sound_timer := 0
  display := fun _ => false
  keys := fun _ => false

/-- `Chip8::push`: `stack[stack_pointer] = value; stack_pointer += 1`.
Indexing `stack[stack_pointer]` panics when `stack_pointer ≥ 16`. -/
def Chip8.push (s : Chip8) (value : Nat) : Except Fault Chip8 :=
  if s.stack_pointer < 16 then
    .ok { s with stack := Function.update s.stack s.stack_pointer value,
                 stack_pointer := s.stack_pointer + 1 }
  else .error .stackOverflow

/-- `Chip8::pop`: `stack_pointer -= 1; stack[stack_pointer]`.  The u16
decrement underflows (and the subsequent indexing panics) when
`stack_pointer = 0`; indexing also panics when the decremented pointer
is still ≥ 16. -/
def Chip8.pop (s : Chip8) : Except Fault (Nat × Chip8) :=
  if s.stack_pointer = 0 then .error .stackUnderflow
  else if s.stack_pointer - 1 < 16 then
    .ok (s.stack (s.stack_pointer - 1), { s with stack_pointer := s.stack_pointer - 1 })
  else .error .memOOB

/-- `Chip8::fetch`: read the big-endian instruction word at
`program_counter` and advance it by 2.  Reading `memory[pc]` and
`memory[pc + 1]` panics unless both addresses are below 4096. -/
def fetch (s : Chip8) : Except Fault (Nat × Chip8) :=
  if s.program_counter + 1 < 4096 then
    .ok ((s.memory s.program_counter <<< 8) ||| s.memory (s.program_counter + 1),
         { s with program_counter := (s.program_counter + 2) % 65536 })
  else .error .memOOB

/-- The wait-for-key scan of opcode FX0A: the Rust `for i in 0..16`
loop returning the lowest pressed key index, as a fuel-indexed scan
starting at `i`. -/
def findPressedAux (keys : Nat → Bool) : Nat → Nat → Option Nat
  | _, 0 => none
  | i, fuel + 1 => if keys i then some i else findPressedAux keys (i + 1) fuel

/-- The full 0..16 key scan of opcode FX0A. -/
def findPressed (keys : Nat → Bool) : Option Nat :=
  findPressedAux keys 0 16

/-- The list of display indices hit by the set bits of a sprite: for
each row `y_line < n` and column `x_line < 8` whose sprite bit
`memory[index + y_line] & (0x80 >> x_line)` is set, the pixel index
`(x + x_line) % 64 + 64 * ((y + y_line) % 32)`, in the Rust loop
order.  The u16 row address wraps at 65536. -/
def drawTargets (mem : Nat → Nat) (index x y n : Nat) : List Nat :=
  (List.range n).flatMap fun yl =>
    (List.range 8).filterMap fun xl =>
      if mem ((index + yl) % 65536) &&& (128 >>> xl) ≠ 0 then
        some ((x + xl) % 64 + 64 * ((y + yl) % 32))
      else none

/-- The XOR blit of opcode DXYN over a list of pixel indices:
`flipped |= display[idx]; display[idx] ^= true` for each index in
order. -/
def blit : List Nat → (Nat → Bool) → Bool → (Nat → Bool) × Bool
  | [], d, f => (d, f)
  | t :: ts, d, f => blit ts (Function.update d t (!d t)) (f || d t)

/-- The scale `k` used by the binary32 model of `a / b`: the least `k`
with `a * 2 ^ k ≥ b * 2 ^ 23`, so that the 24-bit significand of the
quotient is `a * 2 ^ k / b` rounded to an integer. -/
def rneScale (a b : Nat) : Nat :=
  (((List.range 64).find? fun k => decide (b * 8388608 ≤ a * 2 ^ k)).getD 0)

/-- Exact model of IEEE-754 binary32 division `a as f32 / b as f32`
for natural `a`, `b` with `0 < b` and `a, b < 2 ^ 24` (so both convert
to f32 exactly): the result is the pair `(m, k)` representing the
rational `m / 2 ^ k`, where `m` is `a * 2 ^ k / b` rounded to the
nearest integer with ties to even — round-to-nearest-even at 24
significant bits. -/
def rneDiv (a b : Nat) : Nat × Nat :=
  if a = 0 then (0, 0)
  else
    let k := rneScale a b
    let n := a * 2 ^ k
    let q := n / b
    let r := n % b
    let m := if 2 * r < b then q
             else if b < 2 * r then q + 1
             else if q % 2 = 0 then q else q + 1
    (m, k)

/-- `(vx / 100.0).floor() as u8` of opcode FX33: floor of the exactly
modelled binary32 quotient.  `floor` and the in-range `as u8` cast are
exact on binary32. -/
def bcdHundreds (v : Nat) : Nat :=
  (rneDiv v 100).1 / 2 ^ (rneDiv v 100).2

/-- `((vx / 10.0) % 10.0).floor() as u8` of opcode FX33.  The IEEE
`%` (fmod) of two finite binary32 values is exact, so it is computed
on the exact rational `m / 2 ^ k` returned by `rneDiv`. -/
def bcdTens (v : Nat) : Nat :=
  let p := rneDiv v 10
  (p.1 - 10 * (p.1 / (10 * 2 ^ p.2)) * 2 ^ p.2) / 2 ^ p.2

/-- `(vx % 10.0) as u8` of opcode FX33: for `v < 2 ^ 24` the operands
convert to binary32 exactly and fmod is exact, giving `v % 10`. -/
def bcdOnes (v : Nat) : Nat := v % 10

/-- Arm `(0,0,E,0)` — CLS: clear the display. -/
def opCls (s : Chip8) : Except Fault Chip8 :=
  .ok { s with display := fun _ => false }

/-- Arm `(0,0,E,E)` — RET: pop the return address into the program
counter. -/
def opRet (s : Chip8) : Except Fault Chip8 :=
  (s.pop).map fun p => { p.2 with program_counter := p.1 }

/-- Arm `(1,_,_,_)` — JMP NNN. -/
def opJmp (op : Nat) (s : Chip8) : Except Fault Chip8 :=
  .ok { s with program_counter := op &&& 0xFFF }

/-- Arm `(2,_,_,_)` — CALL NNN: push the program counter, jump. -/
def opCall (op : Nat) (s : Chip8) : Except Fault Chip8 :=
  (s.push s.program_counter).map fun t => { t with program_counter := op &&& 0xFFF }

/-- Arm `(3,_,_,_)` — skip next instruction if reg X equals NN. -/
def opSkipEqNN (x op : Nat) (s : Chip8) : Except Fault Chip8 :=
  .ok (if s.registers x = op &&& 0xFF then
         { s with program_counter := (s.program_counter + 2) % 65536 }
       else s)

/-- Arm `(4,_,_,_)` — skip next instruction if reg X differs from NN. -/
def opSkipNeNN (x op : Nat) (s : Chip8) : Except Fault Chip8 :=
  .ok (if s.registers x ≠ op &&& 0xFF then
         { s with program_counter := (s.program_counter + 2) % 65536 }
       else s)

/-- Arm `(6,_,_,_)` — reg X = NN. -/
def opSetNN (x op : Nat) (s : Chip8) : Except Fault Chip8 :=
  .ok { s with registers := Function.update s.registers x (op &&& 0xFF) }

/-- Arm `(7,_,_,_)` — reg X += NN, wrapping at 256. -/
def opAddNN (x op : Nat) (s : Chip8) : Except Fault Chip8 :=
  .ok { s with registers :=
          (Function.update s.registers x ((s.registers x + (op &&& 0xFF)) % 256)) }

/-- Arm `(8,_,_,0)` — reg X = reg Y. -/
def opMov (x y : Nat) (s : Chip8) : Except Fault Chip8 :=
  .ok { s with registers := Function.update s.registers x (s.registers y) }

/-- Arm `(8,_,_,1)` — reg X |= reg Y. -/
def opOr (x y : Nat) (s : Chip8) : Except Fault Chip8 :=
  .ok { s with registers :=
          (Function.update s.registers x (s.registers x ||| s.registers y)) }

/-- Arm `(8,_,_,2)` — reg X &= reg Y. -/
def opAnd (x y : Nat) (s : Chip8) : Except Fault Chip8 :=
  .ok { s with registers :=
          (Function.update s.registers x (s.registers x &&& s.registers y)) }

/-- Arm `(8,_,_,3)` — reg X ^= reg Y. -/
def opXor (x y : Nat) (s : Chip8) : Except Fault Chip8 :=
  .ok { s with registers :=
          (Function.update s.registers x (s.registers x ^^^ s.registers y)) }

/-- Arm `(8,_,_,4)` — reg X += reg Y with wrap; reg 15 is the carry
bit of the 8-bit addition (`overflowing_add`). -/
def opAddCarry (x y : Nat) (s : Chip8) : Except Fault Chip8 :=
  .ok { s with registers :=
          (Function.update
            (Function.update s.registers x ((s.registers x + s.registers y) % 256))
            15
            (if 256 ≤ s.registers x + s.registers y then 1 else 0)) }

/-- Arm `(8,_,_,5)` — reg X -= reg Y with wrap; reg 15 is the borrow
bit of the 8-bit subtraction (`overflowing_sub`): 1 when a borrow
occurred, 0 when not. -/
def opSubBorrow (x y : Nat) (s : Chip8) : Except Fault Chip8 :=
  .ok { s with registers :=
          (Function.update
            (Function.update s.registers x ((s.registers x + 256 - s.registers y) % 256))
            15
            (if s.registers x < s.registers y then 1 else 0)) }

/-- Arm `(8,_,_,6)` — reg 15 = reg X & 1, then reg X >>= 1, in source
order (the flag write lands first, so it is visible to the shift when
X = 15). -/
def opShr (x : Nat) (s : Chip8) : Except Fault Chip8 :=
  .ok { s with registers :=
          (let r1 := Function.update s.registers 15 (s.registers x &&& 1)
          Function.update r1 x (r1 x >>> 1)) }

/-- Arm `(8,_,_,7)` — reg X = reg Y - reg X with wrap; reg 15 is the
borrow bit (`overflowing_sub`). -/
def opSubRev (x y : Nat) (s : Chip8) : Except Fault Chip8 :=
  .ok { s with registers :=
          (Function.update
            (Function.update s.registers x ((s.registers y + 256 - s.registers x) % 256))
            15
            (if s.registers y < s.registers x then 1 else 0)) }

/-- Arm `(8,_,_,E)` — reg 15 = high bit of reg X, then reg X <<= 1
(wrapping), in source order. -/
def opShl (x : Nat) (s : Chip8) : Except Fault Chip8 :=
  .ok { s with registers :=
          (let r1 := Function.update s.registers 15 ((s.registers x >>> 7) &&& 1)
          Function.update r1 x ((r1 x <<< 1) % 256)) }

/-- Arm `(9,_,_,0)` — skip next instruction if reg X differs from
reg Y. -/
def opSkipNeReg (x y : Nat) (s : Chip8) : Except Fault Chip8 :=
  .ok (if s.registers x ≠ s.registers y then
         { s with program_counter := (s.program_counter + 2) % 65536 }
       else s)

/-- Arm `(A,_,_,_)` — index = NNN. -/
def opSetIndex (op : Nat) (s : Chip8) : Except Fault Chip8 :=
  .ok { s with index := op &&& 0xFFF }

/-- Arm `(B,_,_,_)` — jump to reg 0 + NNN. -/
def opJmpV0 (op : Nat) (s : Chip8) : Except Fault Chip8 :=
  .ok { s with program_counter := s.registers 0 + (op &&& 0xFFF) }

/-- Arm `(C,_,_,_)` — reg X = random byte & NN. -/
def opRand (rnd x op : Nat) (s : Chip8) : Except Fault Chip8 :=
  .ok { s with registers :=
          (Function.update s.registers x ((rnd % 256) &&& (op &&& 0xFF))) }

/-- Arm `(D,_,_,_)` — DRAW: XOR-blit `n` sprite rows read at `index`
to `(reg x, reg y)`; reg 15 reports whether a set pixel was erased.
Each row read `memory[index + y_line]` panics when out of range. -/
def opDraw (x y n : Nat) (s : Chip8) : Except Fault Chip8 :=
  if (List.range n).all fun yl => decide ((s.index + yl) % 65536 < 4096) then
    let r := blit (drawTargets s.memory s.index (s.registers x) (s.registers y) n)
              s.display false
    .ok { s with display := r.1,
                 registers := Function.update s.registers 15 (if r.2 then 1 else 0) }
  else .error .memOOB

/-- Arm `(E,_,9,E)` — skip next instruction if the key indexed by
reg X is pressed.  `keys[reg X]` panics when reg X ≥ 16. -/
def opSkipKey (x : Nat) (s : Chip8) : Except Fault Chip8 :=
  if s.registers x < 16 then
    .ok (if s.keys (s.registers x) then
           { s with program_counter := (s.program_counter + 2) % 65536 }
         else s)
  else .error .memOOB

/-- Arm `(E,_,A,1)` — skip next instruction if the key indexed by
reg X is not pressed. -/
def opSkipNoKey (x : Nat) (s : Chip8) : Except Fault Chip8 :=
  if s.registers x < 16 then
    .ok (if ! s.keys (s.registers x) then
           { s with program_counter := (s.program_counter + 2) % 65536 }
         else s)
  else .error .memOOB

/-- Arm `(F,_,0,7)` — reg X = delay_timer. -/
def opGetDelay (x : Nat) (s : Chip8) : Except Fault Chip8 :=
  .ok { s with registers := Function.update s.registers x s.delay_timer }

/-- Arm `(F,_,0,A)` — WAIT KEY: store the lowest pressed key in reg X,
or rewind the program counter by 2 (u16 wrapping) when none is. -/
def opWaitKey (x : Nat) (s : Chip8) : Except Fault Chip8 :=
  match findPressed s.keys with
  | some i => .ok { s with registers := Function.update s.registers x i }
  | none => .ok { s with program_counter := (s.program_counter + 65534) % 65536 }

/-- Arm `(F,_,1,5)` — delay_timer = reg X. -/
def opSetDelay (x : Nat) (s : Chip8) : Except Fault Chip8 :=
  .ok { s with delay_timer := s.registers x }

/-- Arm `(F,_,1,8)` — sound_timer = reg X. -/
def opSetSound (x : Nat) (s : Chip8) : Except Fault Chip8 :=
  .ok { s with sound_timer := s.registers x }

/-- Arm `(F,_,1,E)` — index += reg X, wrapping at 65536. -/
def opAddIndex (x : Nat) (s : Chip8) : Except Fault Chip8 :=
  .ok { s with index := (s.index + s.registers x) % 65536 }

/-- Arm `(F,_,2,9)` — index = reg X * 5 (font glyph address). -/
def opFont (x : Nat) (s : Chip8) : Except Fault Chip8 :=
  .ok { s with index := s.registers x * 5 }

/-- Arm `(F,_,3,3)` — BCD: store the decimal digits of reg X at
`memory[index..index+2]` (computed in binary32, modelled exactly).
The u16 address increments wrap; each write panics out of range. -/
def opBcd (x : Nat) (s : Chip8) : Except Fault Chip8 :=
  if s.index < 4096 ∧ (s.index + 1) % 65536 < 4096 ∧ (s.index + 2) % 65536 < 4096 then
    .ok { s with memory :=
            (Function.update
              (Function.update
                (Function.update s.memory s.index (bcdHundreds (s.registers x)))
                ((s.index + 1) % 65536) (bcdTens (s.registers x)))
              ((s.index + 2) % 65536) (bcdOnes (s.registers x))) }
  else .error .memOOB

/-- Arm `(F,_,5,5)` — store reg 0..X into memory at `index`.  Each
write `memory[index + idx]` panics when out of range. -/
def opStore (x : Nat) (s : Chip8) : Except Fault Chip8 :=
  if s.index + x < 4096 then
    .ok { s with memory :=
            ((List.range (x + 1)).foldl
              (fun m i => Function.update m (s.index + i) (s.registers i)) s.memory) }
  else .error .memOOB

/-- Arm `(F,_,6,5)` — load reg 0..X from memory at `index`. -/
def opLoad (x : Nat) (s : Chip8) : Except Fault Chip8 :=
  if s.index + x < 4096 then
    .ok { s with registers :=
            ((List.range (x + 1)).foldl
              (fun r i => Function.update r i (s.memory (s.index + i))) s.registers) }
  else .error .memOOB

/-- `Chip8::execute`, arm for arm in the order of the Rust `match`:
the four nibbles are extracted as in the source and dispatched down an
ordered chain of pattern tests, each arm implemented by the `op...`
definition named after it.  Unlisted patterns fall through to the
`panic!` arm, modelled as `Fault.decodeErr op`.  `rnd` is the byte
drawn by `rand::thread_rng().gen::<u8>()` in the CXNN arm. -/
def execute (rnd : Nat) (op : Nat) (s : Chip8) : Except Fault Chip8 :=
  let digit1 := (op &&& 0xF000) >>> 12
  let digit2 := (op &&& 0x0F00) >>> 8
  let digit3 := (op &&& 0x00F0) >>> 4
  let digit4 := op &&& 0x000F
  if digit1 = 0 ∧ digit2 = 0 ∧ digit3 = 0 ∧ digit4 = 0 then
    -- NOP: std::process::exit(0)
    .error .halt
  else if digit1 = 0 ∧ digit2 = 0 ∧ digit3 = 0xE ∧ digit4 = 0 then
    opCls s
  else if digit1 = 0 ∧ digit2 = 0 ∧ digit3 = 0xE ∧ digit4 = 0xE then
    opRet s
  else if digit1 = 1 then
    opJmp op s
  else if digit1 = 2 then
    opCall op s
  else if digit1 = 3 then
    opSkipEqNN digit2 op s
  else if digit1 = 4 then
    opSkipNeNN digit2 op s
  else if digit1 = 6 then
    opSetNN digit2 op s
  else if digit1 = 7 then
    opAddNN digit2 op s
  else if digit1 = 8 ∧ digit4 = 0 then
    opMov digit2 digit3 s
  else if digit1 = 8 ∧ digit4 = 1 then
    opOr digit2 digit3 s
  else if digit1 = 8 ∧ digit4 = 2 then
    opAnd digit2 digit3 s
  else if digit1 = 8 ∧ digit4 = 3 then
    opXor digit2 digit3 s
  else if digit1 = 8 ∧ digit4 = 4 then
    opAddCarry digit2 digit3 s
  else if digit1 = 8 ∧ digit4 = 5 then
    opSubBorrow digit2 digit3 s
  else if digit1 = 8 ∧ digit4 = 6 then
    opShr digit2 s
  else if digit1 = 8 ∧ digit4 = 7 then
    opSubRev digit2 digit3 s
  else if digit1 = 8 ∧ digit4 = 0xE then
    opShl digit2 s
  else if digit1 = 9 ∧ digit4 = 0 then
    opSkipNeReg digit2 digit3 s
  else if digit1 = 0xA then
    opSetIndex op s
  else if digit1 = 0xB then
    opJmpV0 op s
  else if digit1 = 0xC then
    opRand rnd digit2 op s
  else if digit1 = 0xD then
    opDraw digit2 digit3 digit4 s
  else if digit1 = 0xE ∧ digit3 = 9 ∧ digit4 = 0xE then
    opSkipKey digit2 s
  else if digit1 = 0xE ∧ digit3 = 0xA ∧ digit4 = 1 then
    opSkipNoKey digit2 s
  else if digit1 = 0xF ∧ digit3 = 0 ∧ digit4 = 7 then
    opGetDelay digit2 s
  else if digit1 = 0xF ∧ digit3 = 0 ∧ digit4 = 0xA then
    opWaitKey digit2 s
  else if digit1 = 0xF ∧ digit3 = 1 ∧ digit4 = 5 then
    opSetDelay digit2 s
  else if digit1 = 0xF ∧ digit3 = 1 ∧ digit4 = 8 then
    opSetSound digit2 s
  else if digit1 = 0xF ∧ digit3 = 1 ∧ digit4 = 0xE then
    opAddIndex digit2 s
  else if digit1 = 0xF ∧ digit3 = 2 ∧ digit4 = 9 then
    opFont digit2 s
  else if digit1 = 0xF ∧ digit3 = 3 ∧ digit4 = 3 then
    opBcd digit2 s
  else if digit1 = 0xF ∧ digit3 = 5 ∧ digit4 = 5 then
    opStore digit2 s
  else if digit1 = 0xF ∧ digit3 = 6 ∧ digit4 = 5 then
    opLoad digit2 s
  else
    .error (.decodeErr op)

/-- One scheduler iteration of the instruction task: fetch then
execute. -/
def step (rnd : Nat) (s : Chip8) : Except Fault Chip8 :=
  (fetch s).bind fun p => execute rnd p.1 p.2

/-- `n` iterations of the instruction task; `f k` is the random byte
available to the `k`-th step. -/
def run (f : Nat → Nat) : Nat → Chip8 → Except Fault Chip8
  | 0, s => .ok s
  | n + 1, s => (run f n s).bind (step (f n))

/-- One iteration of the 60 Hz timer task of `main`: decrement
`delay_timer` if positive, then decrement `sound_timer` if positive. -/
def timerTick (s : Chip8) : Chip8 :=
  let s1 := if 0 < s.delay_timer then { s with delay_timer := s.delay_timer - 1 } else s
  if 0 < s1.sound_timer then { s1 with sound_timer := s1.sound_timer - 1 } else s1

/-- `n` iterations of the timer task. -/
def ticks : Nat → Chip8 → Chip8
  | 0, s => s
  | n + 1, s => ticks n (timerTick s)

/-- The big-endian instruction word a `fetch` from state `s` would
return (without the program-counter advance). -/
def fetchedOp (s : Chip8) : Nat :=
  (s.memory s.program_counter <<< 8) ||| s.memory (s.program_counter + 1)

/-- The instruction about to execute in state `s` transfers control
only to even addresses: every jump (1NNN), call (2NNN), offset jump
(BNNN) target and every address a return (00EE) would pop is even.
Non-transfer instructions impose no condition. -/
def transferEven (s : Chip8) : Prop :=
  (((fetchedOp s &&& 0xF000) >>> 12 = 1 ∨ (fetchedOp s &&& 0xF000) >>> 12 = 2) →
    (fetchedOp s &&& 0xFFF) % 2 = 0) ∧
  ((fetchedOp s &&& 0xF000) >>> 12 = 0xB →
    (s.registers 0 + (fetchedOp s &&& 0xFFF)) % 2 = 0) ∧
  ((fetchedOp s &&& 0xF000) >>> 12 = 0 ∧ (fetchedOp s &&& 0x0F00) >>> 8 = 0 ∧
      (fetchedOp s &&& 0x00F0) >>> 4 = 0xE ∧ fetchedOp s &&& 0x000F = 0xE →
    s.stack_pointer ≠ 0 → s.stack (s.stack_pointer - 1) % 2 = 0)

/-- Deciding `transferEven` by evaluation. -/
instance (s : Chip8) : Decidable (transferEven s) := by
  unfold transferEven
  infer_instance

/-- A sequence of call instructions `2NNN`, one per listed address. -/
def doCalls : List Nat → Chip8 → Except Fault Chip8
  | [], s => .ok s
  | a :: rest, s => (execute 0 (0x2000 + a % 4096) s).bind (doCalls rest)

/-- A sequence of `n` return instructions `00EE`. -/
def doRets : Nat → Chip8 → Except Fault Chip8
  | 0, s => .ok s
  | n + 1, s => (execute 0 0x00EE s).bind (doRets n)

/-- Concrete state for the 8XY5 flag check: reg0 = 5, reg1 = 3. -/
def subFlagState : Chip8 :=
  { fromImage [] with registers := fun i => if i = 0 then 5 else if i = 1 then 3 else 0 }

/-- Concrete program for the C3 scenario: 6002, 7003, F107. -/
def scenarioProg : Chip8 := fromImage [0x60, 0x02, 0x70, 0x03, 0xF1, 0x07]

/-- Concrete program consisting of a single wait-for-key `F00A`. -/
def waitKeyState : Chip8 := fromImage [0xF0, 0x0A]

/-- `waitKeyState` with exactly key 7 pressed. -/
def waitKeyPressedState : Chip8 := { waitKeyState with keys := fun i => i == 7 }

/-- Concrete program that jumps to its own (even) start address. -/
def loopState : Chip8 := fromImage [0x12, 0x00]

/-- An otherwise fresh state whose call stack is full. -/
def fullStackState : Chip8 := { fromImage [] with stack_pointer := 16 }

/-- An otherwise fresh state with delay and sound timers set to 60. -/
def timerState : Chip8 := { fromImage [] with delay_timer := 60, sound_timer := 60 }

/-- An otherwise fresh state with reg2 = 137 and index = 0x300. -/
def bcdState : Chip8 :=
  { fromImage [] with registers := fun i => if i = 2 then 137 else 0, index := 0x300 }

/-- The fault of an interpreter outcome, if any. -/
def faultOf (r : Except Fault Chip8) : Option Fault :=
  match r with
  | .error e => some e
  | .ok _ => none

/-- Clear-display state of the C2 draw scenario. -/
def drawState1 : Chip8 :=
  match execute 0 0x00E0 (fromImage []) with | .ok t => t | .error _ => fromImage []

/-- `drawState1` after drawing sprite byte 0xF0 at (0,0), height 1. -/
def drawState2 : Chip8 :=
  match execute 0 0xD011 drawState1 with | .ok t => t | .error _ => drawState1

/-- `drawState2` after the identical draw a second time. -/
def drawState3 : Chip8 :=
  match execute 0 0xD011 drawState2 with | .ok t => t | .error _ => drawState2

/-- Masking with an all-ones constant is a modulus. -/
theorem and_mask_mod (n k : Nat) : n &&& (2 ^ k - 1) = n % 2 ^ k := by
  apply Nat.eq_of_testBit_eq
  intro i
  rw [Nat.testBit_and, Nat.testBit_two_pow_sub_one, Nat.testBit_mod_two_pow, Bool.and_comm]

/-- Right shift distributes over bitwise conjunction. -/
theorem shr_and_distrib (a b k : Nat) : (a &&& b) >>> k = (a >>> k) &&& (b >>> k) := by
  apply Nat.eq_of_testBit_eq
  intro i
  rw [Nat.testBit_shiftRight, Nat.testBit_and, Nat.testBit_and, Nat.testBit_shiftRight,
    Nat.testBit_shiftRight]

/-- First opcode nibble as arithmetic. -/
theorem digit1_eq (op : Nat) : (op &&& 0xF000) >>> 12 = op / 4096 % 16 := by
  rw [shr_and_distrib, show ((0xF000 : Nat) >>> 12) = 2 ^ 4 - 1 from by decide,
    and_mask_mod, Nat.shiftRight_eq_div_pow]
  norm_num

/-- Second opcode nibble as arithmetic. -/
theorem digit2_eq (op : Nat) : (op &&& 0x0F00) >>> 8 = op / 256 % 16 := by
  rw [shr_and_distrib, show ((0x0F00 : Nat) >>> 8) = 2 ^ 4 - 1 from by decide,
    and_mask_mod, Nat.shiftRight_eq_div_pow]
  norm_num

/-- Third opcode nibble as arithmetic. -/
theorem digit3_eq (op : Nat) : (op &&& 0x00F0) >>> 4 = op / 16 % 16 := by
  rw [shr_and_distrib, show ((0x00F0 : Nat) >>> 4) = 2 ^ 4 - 1 from by decide,
    and_mask_mod, Nat.shiftRight_eq_div_pow]
  norm_num

/-- Fourth opcode nibble as arithmetic. -/
theorem digit4_eq (op : Nat) : op &&& 0x000F = op % 16 := by
  rw [show (0x000F : Nat) = 2 ^ 4 - 1 from by decide, and_mask_mod]
  norm_num

/-- The 12-bit address field as arithmetic. -/
theorem nnn_eq (op : Nat) : op &&& 0xFFF = op % 4096 := by
  rw [show (0xFFF : Nat) = 2 ^ 12 - 1 from by decide, and_mask_mod]
  norm_num

/-- The 8-bit immediate field as arithmetic. -/
theorem nn_eq (op : Nat) : op &&& 0xFF = op % 256 := by
  rw [show (0xFF : Nat) = 2 ^ 8 - 1 from by decide, and_mask_mod]
  norm_num

/-- The key scan returns `none` when no key in its window is set. -/
theorem findPressedAux_none (keys : Nat → Bool) (fuel : Nat) :
    ∀ i, (∀ m, i ≤ m → m < i + fuel → keys m = false) →
      findPressedAux keys i fuel = none := by
  induction fuel with
  | zero => intro i _; rfl
  | succ fuel ih =>
    intro i h
    simp only [findPressedAux]
    rw [h i le_rfl (by omega)]
    simp only [Bool.false_eq_true, if_false]
    exact ih (i + 1) fun m h1 h2 => h m (by omega) (by omega)

/-- The key scan returns the lowest set key in its window. -/
theorem findPressedAux_lowest (keys : Nat → Bool) (fuel : Nat) :
    ∀ i j, i ≤ j → j < i + fuel → keys j = true →
      (∀ m, i ≤ m → m < j → keys m = false) →
      findPressedAux keys i fuel = some j := by
  induction fuel with
  | zero => intro i j h1 h2 _ _; omega
  | succ fuel ih =>
    intro i j h1 h2 hj hlow
    simp only [findPressedAux]
    rcases Nat.eq_or_lt_of_le h1 with he | hlt
    · subst he
      rw [hj]
      simp
    · rw [hlow i le_rfl hlt]
      simp only [Bool.false_eq_true, if_false]
      exact ih (i + 1) j (by omega) (by omega) hj fun m hm1 hm2 => hlow m (by omega) hm2

/-- `List.any` only depends on the predicate's values on members. -/
theorem any_congr_mem (ts : List Nat) (f g : Nat → Bool)
    (h : ∀ u ∈ ts, f u = g u) : ts.any f = ts.any g := by
  induction ts with
  | nil => rfl
  | cons t ts ih =>
    simp only [List.any_cons]
    rw [h t (List.mem_cons_self t ts), ih fun u hu => h u (List.mem_cons_of_mem t hu)]

/-- A conditional `filterMap` is a `map` over a `filter`. -/
theorem filterMap_ite {α β : Type} (l : List α) (p : α → Prop) [DecidablePred p]
    (f : α → β) :
    (l.filterMap fun a => if p a then some (f a) else none) =
      (l.filter fun a => decide (p a)).map f := by
  induction l with
  | nil => rfl
  | cons a l ih =>
    by_cases hpa : p a
    · simp [List.filterMap_cons, List.filter_cons, hpa, ih]
    · simp [List.filterMap_cons, List.filter_cons, hpa, ih]

/-- Pixel-level description of `blit` over a duplicate-free target
list: each listed pixel is toggled, all others are untouched. -/
theorem blit_display (ts : List Nat) :
    ∀ (d : Nat → Bool) (f : Bool), ts.Nodup →
      ∀ p, (blit ts d f).1 p = if p ∈ ts then !d p else d p := by
  induction ts with
  | nil => intro d f _ p; simp [blit]
  | cons t ts ih =>
    intro d f h p
    rcases List.nodup_cons.mp h with ⟨ht, hts⟩
    simp only [blit]
    rw [ih _ _ hts p]
    by_cases hp : p ∈ ts
    · have hpt : p ≠ t := fun e => ht (e ▸ hp)
      simp [hp, hpt, Function.update_apply, List.mem_cons]
    · by_cases hpt : p = t
      · subst hpt
        simp [hp, Function.update_apply]
      · simp [hp, hpt, Function.update_apply, List.mem_cons]

/-- The collision accumulator of `blit` over a duplicate-free target
list is the disjunction of the pre-blit values of the listed pixels. -/
theorem blit_flag (ts : List Nat) :
    ∀ (d : Nat → Bool) (f : Bool), ts.Nodup →
      (blit ts d f).2 = (f || ts.any fun t => d t) := by
  induction ts with
  | nil => intro d f _; simp [blit]
  | cons t ts ih =>
    intro d f h
    rcases List.nodup_cons.mp h with ⟨ht, hts⟩
    simp only [blit, List.any_cons]
    rw [ih _ _ hts]
    have hcong : (ts.any fun u => Function.update d t (!d t) u) = ts.any fun u => d u := by
      apply any_congr_mem
      intro u hu
      have : u ≠ t := fun e => ht (e ▸ hu)
      simp [Function.update_apply, this]
    rw [hcong, Bool.or_assoc]

/-- The pixels hit by one sprite row all carry that row's tag. -/
theorem mem_rowTargets (mem : Nat → Nat) (index x y n yl t : Nat)
    (h : t ∈ (List.range 8).filterMap fun xl =>
      if mem ((index + yl) % 65536) &&& (128 >>> xl) ≠ 0 then
        some ((x + xl) % 64 + 64 * ((y + yl) % 32))
      else none) :
    ∃ xl < 8, t = (x + xl) % 64 + 64 * ((y + yl) % 32) := by
  rcases List.mem_filterMap.mp h with ⟨xl, hxl, heq⟩
  refine ⟨xl, List.mem_range.mp hxl, ?_⟩
  by_cases hc : mem ((index + yl) % 65536) &&& (128 >>> xl) ≠ 0
  · rw [if_pos hc] at heq
    exact (Option.some.injEq _ _ ▸ heq).symm
  · rw [if_neg hc] at heq
    cases heq

/-- The target list of a draw of at most 32 rows has no duplicate
pixel index. -/
theorem drawTargets_nodup (mem : Nat → Nat) (index x y n : Nat) (hn : n ≤ 32) :
    (drawTargets mem index x y n).Nodup := by
  rw [drawTargets, List.nodup_flatMap]
  constructor
  · intro yl _
    rw [filterMap_ite (List.range 8)
      (fun xl => mem ((index + yl) % 65536) &&& (128 >>> xl) ≠ 0)
      (fun xl => (x + xl) % 64 + 64 * ((y + yl) % 32))]
    apply List.Nodup.map_on
    · intro a ha b hb hfab
      have ha8 : a < 8 := List.mem_range.mp (List.mem_of_mem_filter ha)
      have hb8 : b < 8 := List.mem_range.mp (List.mem_of_mem_filter hb)
      omega
    · exact (List.nodup_range 8).filter _
  · apply List.Pairwise.imp_of_mem ?_ (List.pairwise_lt_range n)
    intro a b ha hb hab
    have hbn : b < n := List.mem_range.mp hb
    intro t hta htb
    rcases mem_rowTargets mem index x y n a t hta with ⟨xa, hxa, hea⟩
    rcases mem_rowTargets mem index x y n b t htb with ⟨xb, hxb, heb⟩
    omega

/-- Full characterization of a successful DXYN execution: the targeted
pixels are toggled, register 15 records whether any targeted pixel was
previously set, and every other state component is unchanged. -/
theorem execute_draw (rnd op : Nat) (s s' : Chip8)
    (h1 : op / 4096 % 16 = 0xD)
    (h : execute rnd op s = .ok s') :
    (∀ p, s'.display p =
        if p ∈ drawTargets s.memory s.index (s.registers (op / 256 % 16))
            (s.registers (op / 16 % 16)) (op % 16) then !s.display p else s.display p) ∧
    s'.registers = Function.update s.registers 15
      (if (drawTargets s.memory s.index (s.registers (op / 256 % 16))
            (s.registers (op / 16 % 16)) (op % 16)).any (fun t => s.display t)
       then 1 else 0) ∧
    s'.memory = s.memory ∧ s'.index = s.index ∧
    s'.program_counter = s.program_counter ∧ s'.stack_pointer = s.stack_pointer ∧
    s'.stack = s.stack ∧ s'.keys = s.keys ∧
    s'.delay_timer = s.delay_timer ∧ s'.sound_timer = s.sound_timer := by
  have hnodup := drawTargets_nodup s.memory s.index (s.registers (op / 256 % 16))
    (s.registers (op / 16 % 16)) (op % 16) (by omega)
  simp only [execute, opDraw, digit1_eq, digit2_eq, digit3_eq, digit4_eq, h1] at h
  norm_num at h
  split at h
  · injection h with h
    subst h
    refine ⟨?_, ?_, rfl, rfl, rfl, rfl, rfl, rfl, rfl, rfl⟩
    · intro p
      exact blit_display _ _ _ hnodup p
    · rw [blit_flag _ _ _ hnodup, Bool.false_or]
  · exact Except.noConfusion h

/-- The collision flag of a successful draw is 1 exactly when some
previously-set pixel ends up cleared. -/
theorem draw_flag_iff_erased (rnd op : Nat) (s s' : Chip8)
    (h1 : op / 4096 % 16 = 0xD) (h : execute rnd op s = .ok s') :
    (s'.registers 15 = 1 ↔ ∃ p, s.display p = true ∧ s'.display p = false) := by
  obtain ⟨hdisp, hregs, -, -, -, -, -, -, -, -⟩ := execute_draw rnd op s s' h1 h
  rw [hregs]
  rw [Function.update_same]
  constructor
  · intro hflag
    by_cases hany : (drawTargets s.memory s.index (s.registers (op / 256 % 16))
        (s.registers (op / 16 % 16)) (op % 16)).any (fun t => s.display t) = true
    · rcases List.any_eq_true.mp hany with ⟨t, htm, htd⟩
      refine ⟨t, htd, ?_⟩
      rw [hdisp t, if_pos htm, htd]
      rfl
    · rw [if_neg hany] at hflag
      cases hflag
  · rintro ⟨p, hp1, hp2⟩
    have hpm : p ∈ drawTargets s.memory s.index (s.registers (op / 256 % 16))
        (s.registers (op / 16 % 16)) (op % 16) := by
      by_contra hpn
      rw [hdisp p, if_neg hpn, hp1] at hp2
      cases hp2
    rw [if_pos (List.any_eq_true.mpr ⟨p, hpm, hp1⟩)]

/-- Drawing the identical sprite twice from the same registers, memory
and index restores every pixel. -/
theorem draw_double_restores (rnd op : Nat) (s s1 s2 : Chip8)
    (h1 : op / 4096 % 16 = 0xD)
    (hX : op / 256 % 16 ≠ 15) (hY : op / 16 % 16 ≠ 15)
    (ha : execute rnd op s = .ok s1) (hb : execute rnd op s1 = .ok s2) :
    ∀ p, s2.display p = s.display p := by
  obtain ⟨hd1, hr1, hm1, hi1, -, -, -, -, -, -⟩ := execute_draw rnd op s s1 h1 ha
  obtain ⟨hd2, -, -, -, -, -, -, -, -, -⟩ := execute_draw rnd op s1 s2 h1 hb
  have hregX : s1.registers (op / 256 % 16) = s.registers (op / 256 % 16) := by
    rw [hr1, Function.update_apply, if_neg hX]
  have hregY : s1.registers (op / 16 % 16) = s.registers (op / 16 % 16) := by
    rw [hr1, Function.update_apply, if_neg hY]
  rw [hm1, hi1, hregX, hregY] at hd2
  intro p
  rw [hd2 p, hd1 p]
  by_cases hp : p ∈ drawTargets s.memory s.index (s.registers (op / 256 % 16))
      (s.registers (op / 16 % 16)) (op % 16)
  · rw [if_pos hp, if_pos hp, Bool.not_not]
  · rw [if_neg hp, if_neg hp]

/-- The target list of the concrete scenario draw. -/
theorem scenario_draw_targets :
    drawTargets drawState1.memory drawState1.index
      (drawState1.registers (0xD011 / 256 % 16)) (drawState1.registers (0xD011 / 16 % 16))
      (0xD011 % 16) = [0, 1, 2, 3] := by
  decide

/-- The target list of the second scenario draw is the same. -/
theorem scenario_draw_targets2 :
    drawTargets drawState2.memory drawState2.index
      (drawState2.registers (0xD011 / 256 % 16)) (drawState2.registers (0xD011 / 16 % 16))
      (0xD011 % 16) = [0, 1, 2, 3] := by
  decide

/-- C2: DXYN XOR-composites sprite bits at wrapped coordinates, and
reg 15 is 1 exactly when a previously-set pixel was erased; drawing
the identical sprite twice (same registers, memory, index) restores
the bitmap exactly; concretely, after clear-display, drawing byte
0xF0 at (0,0) height 1 sets exactly pixels 0–3 with reg15 = 0, and
the identical second draw clears them with reg15 = 1. -/
theorem claim_C2_draw_xor :
    (∀ rnd op s s', op / 4096 % 16 = 0xD → execute rnd op s = .ok s' →
      (s'.registers 15 = 1 ↔ ∃ p, s.display p = true ∧ s'.display p = false)) ∧
    (∀ rnd op s s1 s2, op / 4096 % 16 = 0xD →
      op / 256 % 16 ≠ 15 → op / 16 % 16 ≠ 15 →
      execute rnd op s = .ok s1 → execute rnd op s1 = .ok s2 →
      ∀ p, s2.display p = s.display p) ∧
    (execute 0 0xD011 drawState1 = .ok drawState2 ∧
     (∀ p, p < 2048 → drawState2.display p = decide (p < 4)) ∧
     drawState2.registers 15 = 0 ∧
     execute 0 0xD011 drawState2 = .ok drawState3 ∧
     (∀ p, p < 2048 → drawState3.display p = false) ∧
     drawState3.registers 15 = 1) := by
  have hdisp2 : ∀ p, p < 2048 → drawState2.display p = decide (p < 4) := by
    obtain ⟨hdisp, -⟩ := execute_draw 0 0xD011 drawState1 drawState2 (by norm_num) rfl
    intro p hp
    rw [hdisp p, scenario_draw_targets, show drawState1.display p = false from rfl]
    by_cases h4 : p < 4
    · rw [if_pos (by simp only [List.mem_cons, List.not_mem_nil, or_false]; omega)]
      simp [h4]
    · rw [if_neg (by simp only [List.mem_cons, List.not_mem_nil, or_false]; omega)]
      simp [h4]
  refine ⟨draw_flag_iff_erased, draw_double_restores, rfl, hdisp2, by decide, rfl, ?_, by decide⟩
  obtain ⟨hdisp3, -⟩ := execute_draw 0 0xD011 drawState2 drawState3 (by norm_num) rfl
  intro p hp
  rw [hdisp3 p, scenario_draw_targets2]
  by_cases h4 : p < 4
  · rw [if_pos (by simp only [List.mem_cons, List.not_mem_nil, or_false]; omega),
      hdisp2 p hp]
    simp [h4]
  · rw [if_neg (by simp only [List.mem_cons, List.not_mem_nil, or_false]; omega),
      hdisp2 p hp]
    simp [h4]

/-- Witness for C2 at the concrete scenario draw. -/
theorem claim_C2_draw_xor_witness :
    (drawState2.registers 15 = 1 ↔
      ∃ p, drawState1.display p = true ∧ drawState2.display p = false) ∧
    (∀ p, drawState3.display p = drawState1.display p) :=
  ⟨claim_C2_draw_xor.1 0 0xD011 drawState1 drawState2 (by norm_num) rfl,
   claim_C2_draw_xor.2.1 0 0xD011 drawState1 drawState2 drawState3 (by norm_num)
     (by norm_num) (by norm_num) rfl rfl⟩

/-- C1 (code evaluation at the failing input): on opcode 8015 with
reg0 = 5 and reg1 = 3, no borrow occurs, so the claimed NOT-borrow
flag is 1 — but the code stores the borrow bit itself and leaves
reg15 = 0 (the difference 2 is stored correctly). -/
theorem claim_C1_sub_flag_run :
    (execute 0 0x8015 subFlagState).toOption.map
      (fun t => (t.registers 0, t.registers 15)) = some (2, 0) := by
  decide

/-- C3 (counterexample): the third fetched opcode 0xF107 of the
scenario program is NOT a decode error — the run of three steps
succeeds, because F107 matches the FX07 arm (reg1 = delay_timer). -/
theorem claim_C3_counterexample :
    (run (fun _ => 0) 3 scenarioProg).toOption.map
      (fun t => (t.registers 0, t.registers 1, t.program_counter)) = some (5, 0, 0x206) := by
  decide

/-- C3 (amended): reg0 = 5 after the first two steps; the third step
executes opcode 0xF107 as FX07, storing delay_timer (0) into reg1 and
advancing the program counter; a genuinely unrecognized opcode such as
0xF108 is the one that raises the decode error. -/
theorem claim_C3_amended :
    ((run (fun _ => 0) 2 scenarioProg).toOption.map fun t => t.registers 0) = some 5 ∧
    (run (fun _ => 0) 3 scenarioProg).toOption.map
      (fun t => (t.registers 0, t.registers 1, t.program_counter)) = some (5, 0, 0x206) ∧
    faultOf (execute 0 0xF108 scenarioProg) = some (.decodeErr 0xF108) := by
  refine ⟨by decide, by decide, by decide⟩

/-- One timer tick takes `delay_timer` down by one, with floor 0. -/
theorem timerTick_delay (s : Chip8) : (timerTick s).delay_timer = s.delay_timer - 1 := by
  simp only [timerTick, apply_ite Chip8.delay_timer]
  split_ifs <;> simp_all

/-- One timer tick takes `sound_timer` down by one, with floor 0. -/
theorem timerTick_sound (s : Chip8) : (timerTick s).sound_timer = s.sound_timer - 1 := by
  simp only [timerTick, apply_ite Chip8.sound_timer]
  split_ifs <;> simp_all

/-- `n` timer ticks take `delay_timer` down by `n`, with floor 0. -/
theorem ticks_delay : ∀ (n : Nat) (s : Chip8), (ticks n s).delay_timer = s.delay_timer - n := by
  intro n
  induction n with
  | zero => intro s; simp [ticks]
  | succ n ih =>
    intro s
    rw [ticks, ih, timerTick_delay]
    omega

/-- `n` timer ticks take `sound_timer` down by `n`, with floor 0. -/
theorem ticks_sound : ∀ (n : Nat) (s : Chip8), (ticks n s).sound_timer = s.sound_timer - n := by
  intro n
  induction n with
  | zero => intro s; simp [ticks]
  | succ n ih =>
    intro s
    rw [ticks, ih, timerTick_sound]
    omega

/-- C7: each timer tick decrements `delay_timer` when positive and
leaves it at 0 otherwise; from 60 it reaches 0 after 60 ticks and
stays there; the same holds for `sound_timer`. -/
theorem claim_C7_timer_decay :
    (∀ s : Chip8, 0 < s.delay_timer → (timerTick s).delay_timer = s.delay_timer - 1) ∧
    (∀ s : Chip8, s.delay_timer = 0 → (timerTick s).delay_timer = 0) ∧
    (∀ s : Chip8, 0 < s.sound_timer → (timerTick s).sound_timer = s.sound_timer - 1) ∧
    (∀ s : Chip8, s.sound_timer = 0 → (timerTick s).sound_timer = 0) ∧
    (∀ (s : Chip8) (m : Nat), s.delay_timer = 60 → 60 ≤ m → (ticks m s).delay_timer = 0) ∧
    (∀ (s : Chip8) (m : Nat), s.sound_timer = 60 → 60 ≤ m → (ticks m s).sound_timer = 0) := by
  refine ⟨fun s _ => timerTick_delay s, fun s h => by rw [timerTick_delay, h],
    fun s _ => timerTick_sound s, fun s h => by rw [timerTick_sound, h],
    fun s m h hm => by rw [ticks_delay, h]; omega,
    fun s m h hm => by rw [ticks_sound, h]; omega⟩

/-- Witness for C7 at a concrete state with both timers at 60. -/
theorem claim_C7_timer_decay_witness :
    (ticks 60 timerState).delay_timer = 0 ∧ (ticks 61 timerState).sound_timer = 0 :=
  ⟨claim_C7_timer_decay.2.2.2.2.1 timerState 60 rfl (by decide),
   claim_C7_timer_decay.2.2.2.2.2 timerState 61 rfl (by decide)⟩

set_option maxRecDepth 4000 in
/-- The FX33 digit model agrees with exact integer decimal digits on
every 8-bit value. -/
theorem bcd_digits : ∀ v, v < 256 →
    bcdHundreds v = v / 100 ∧ bcdTens v = v / 10 % 10 ∧ bcdOnes v = v % 10 := by
  decide


/-- `bind` with `ok` is the identity on `Except`. -/
theorem except_bind_ok (e : Except Fault Chip8) : e.bind Except.ok = e := by
  cases e <;> rfl

/-- Associativity of `Except.bind`. -/
theorem except_bind_assoc (e : Except Fault Chip8)
    (f g : Chip8 → Except Fault Chip8) :
    (e.bind f).bind g = e.bind fun t => (f t).bind g := by
  cases e <;> rfl

/-- Zero returns is the identity. -/
theorem doRets_zero_fun : doRets 0 = Except.ok := funext fun _ => rfl

/-- A trailing return can be split off a return sequence. -/
theorem doRets_succ (n : Nat) : ∀ s, doRets (n + 1) s = (doRets n s).bind (execute 0 0x00EE) := by
  induction n with
  | zero =>
    intro s
    show (execute 0 0x00EE s).bind (doRets 0) = (Except.ok s).bind (execute 0 0x00EE)
    rw [doRets_zero_fun, except_bind_ok]
    rfl
  | succ n ih =>
    intro s
    calc doRets (n + 2) s = (execute 0 0x00EE s).bind (doRets (n + 1)) := rfl
      _ = (execute 0 0x00EE s).bind fun t => (doRets n t).bind (execute 0 0x00EE) := by
            rw [funext ih]
      _ = ((execute 0 0x00EE s).bind (doRets n)).bind (execute 0 0x00EE) :=
            (except_bind_assoc _ _ _).symm
      _ = (doRets (n + 1) s).bind (execute 0 0x00EE) := rfl

/-- A call pushes the current program counter and jumps. -/
theorem execute_call (a : Nat) (s : Chip8) (hsp : s.stack_pointer < 16) :
    execute 0 (0x2000 + a % 4096) s = .ok
      { s with stack := Function.update s.stack s.stack_pointer s.program_counter,
               stack_pointer := s.stack_pointer + 1,
               program_counter := a % 4096 } := by
  have h1 : (0x2000 + a % 4096) / 4096 % 16 = 2 := by omega
  have h5 : (0x2000 + a % 4096) % 4096 = a % 4096 := by omega
  simp only [execute, opCall, digit1_eq, digit2_eq, digit3_eq, digit4_eq, nnn_eq, h1, h5,
    Chip8.push]
  norm_num
  rw [if_pos hsp]
  rfl

/-- A return pops the stacked address into the program counter. -/
theorem execute_ret (s : Chip8) (hsp0 : s.stack_pointer ≠ 0) (hsp16 : s.stack_pointer ≤ 16) :
    execute 0 0x00EE s = .ok
      { s with stack_pointer := s.stack_pointer - 1,
               program_counter := s.stack (s.stack_pointer - 1) } := by
  simp only [execute, opRet, digit1_eq, digit2_eq, digit3_eq, digit4_eq, Chip8.pop]
  norm_num
  rw [if_neg hsp0, if_pos (by omega : s.stack_pointer - 1 < 16)]
  rfl

/-- Nested calls followed by matching returns restore the program
counter and stack pointer and preserve the stack below the entry
pointer. -/
theorem calls_rets_balance (l : List Nat) : ∀ (s : Chip8) (k : Nat),
    s.stack_pointer = k → k + l.length ≤ 16 →
    ∃ s', (doCalls l s).bind (doRets l.length) = .ok s' ∧
      s'.program_counter = s.program_counter ∧ s'.stack_pointer = k ∧
      ∀ j, j < k → s'.stack j = s.stack j := by
  induction l with
  | nil =>
    intro s k hk _
    exact ⟨s, rfl, rfl, hk, fun j _ => rfl⟩
  | cons a l ih =>
    intro s k hk hlen
    simp only [List.length_cons] at hlen
    have hc := execute_call a s (by omega)
    obtain ⟨s2, hrun, hpc2, hsp2, hstk2⟩ :=
      ih { s with stack := Function.update s.stack s.stack_pointer s.program_counter,
                  stack_pointer := s.stack_pointer + 1,
                  program_counter := a % 4096 } (k + 1)
        (by simp [hk]) (by omega)
    have hret := execute_ret s2 (by omega) (by omega)
    refine ⟨{ s2 with stack_pointer := s2.stack_pointer - 1, program_counter := s2.stack (s2.stack_pointer - 1) }, ?_, ?_, ?_, ?_⟩
    · show (doCalls (a :: l) s).bind (doRets (a :: l).length) = _
      rw [List.length_cons, doCalls, hc]
      show (doCalls l _).bind (doRets (l.length + 1)) = _
      rw [show doRets (l.length + 1) = fun t => (doRets l.length t).bind (execute 0 0x00EE)
            from funext (doRets_succ l.length), ← except_bind_assoc, hrun]
      show execute 0 0x00EE s2 = _
      exact hret
    · show s2.stack (s2.stack_pointer - 1) = s.program_counter
      rw [hsp2, show k + 1 - 1 = k from rfl, hstk2 k (by omega)]
      show Function.update s.stack s.stack_pointer s.program_counter k = s.program_counter
      rw [hk, Function.update_same]
    · show s2.stack_pointer - 1 = k
      omega
    · intro j hj
      show s2.stack j = s.stack j
      rw [hstk2 j (by omega)]
      show Function.update s.stack s.stack_pointer s.program_counter j = s.stack j
      rw [hk, Function.update_apply, if_neg (by omega)]

/-- C5: from any state with empty stack, executing up to 16 nested
call operations followed by the matching returns restores the program
counter to its pre-call value and leaves the stack pointer at 0. -/
theorem claim_C5_stack_discipline :
    ∀ (l : List Nat) (s : Chip8), s.stack_pointer = 0 → l.length ≤ 16 →
      ∃ s', (doCalls l s).bind (doRets l.length) = .ok s' ∧
        s'.program_counter = s.program_counter ∧ s'.stack_pointer = 0 := by
  intro l s h0 hlen
  obtain ⟨s', h1, h2, h3, -⟩ := calls_rets_balance l s 0 h0 (by omega)
  exact ⟨s', h1, h2, h3⟩

/-- Witness for C5: two nested calls and returns on a fresh state. -/
theorem claim_C5_stack_discipline_witness :
    ∃ s', (doCalls [0x300, 0x400] (fromImage [])).bind (doRets 2) = .ok s' ∧
      s'.program_counter = (fromImage []).program_counter ∧ s'.stack_pointer = 0 :=
  claim_C5_stack_discipline [0x300, 0x400] (fromImage []) rfl (by decide)


/-- The full key scan finds nothing when no key is pressed. -/
theorem findPressed_none (keys : Nat → Bool) (h : ∀ m, m < 16 → keys m = false) :
    findPressed keys = none :=
  findPressedAux_none keys 16 0 fun m h1 h2 => h m (by omega)

/-- The full key scan returns the lowest pressed key. -/
theorem findPressed_lowest (keys : Nat → Bool) (j : Nat) (hj : j < 16)
    (hkey : keys j = true) (hlow : ∀ m, m < j → keys m = false) :
    findPressed keys = some j :=
  findPressedAux_lowest keys 16 0 j (Nat.zero_le j) (by omega) hkey fun m _ h2 => hlow m h2

/-- FX0A with no key pressed rewinds the program counter by 2
(u16 wrapping). -/
theorem execute_waitkey_none (rnd x : Nat) (s : Chip8) (hx : x < 16)
    (hkeys : ∀ i, i < 16 → s.keys i = false) :
    execute rnd (0xF000 + 256 * x + 0x0A) s =
      .ok { s with program_counter := (s.program_counter + 65534) % 65536 } := by
  have h1 : (0xF000 + 256 * x + 0x0A) / 4096 % 16 = 15 := by omega
  have h2 : (0xF000 + 256 * x + 0x0A) / 256 % 16 = x := by omega
  have h3 : (0xF000 + 256 * x + 0x0A) / 16 % 16 = 0 := by omega
  have h4 : (0xF000 + 256 * x + 0x0A) % 16 = 10 := by omega
  simp only [execute, opWaitKey, digit1_eq, digit2_eq, digit3_eq, digit4_eq, h1, h2, h3, h4]
  norm_num
  rw [findPressed_none s.keys hkeys]

/-- FX0A with a key pressed stores the lowest pressed key index. -/
theorem execute_waitkey_some (rnd x j : Nat) (s : Chip8) (hx : x < 16)
    (hj : j < 16) (hkey : s.keys j = true) (hlow : ∀ i, i < j → s.keys i = false) :
    execute rnd (0xF000 + 256 * x + 0x0A) s =
      .ok { s with registers := Function.update s.registers x j } := by
  have h1 : (0xF000 + 256 * x + 0x0A) / 4096 % 16 = 15 := by omega
  have h2 : (0xF000 + 256 * x + 0x0A) / 256 % 16 = x := by omega
  have h3 : (0xF000 + 256 * x + 0x0A) / 16 % 16 = 0 := by omega
  have h4 : (0xF000 + 256 * x + 0x0A) % 16 = 10 := by omega
  simp only [execute, opWaitKey, digit1_eq, digit2_eq, digit3_eq, digit4_eq, h1, h2, h3, h4]
  norm_num
  rw [findPressed_lowest s.keys j hj hkey hlow]

/-- C4: a full fetch/execute step of FX0A with no key pressed leaves
the state (and so the program counter) unchanged, for arbitrarily many
repeated steps; with a key pressed it stores the lowest-indexed
pressed key in reg X and advances the program counter by 2; with only
key 7 pressed, stepping F00A yields reg0 = 7 and pc = 0x202. -/
theorem claim_C4_wait_key :
    (∀ (x : Nat) (s : Chip8), x < 16 →
      fetchedOp s = 0xF000 + 256 * x + 0x0A →
      s.program_counter + 1 < 4096 →
      (∀ i, i < 16 → s.keys i = false) →
      (∀ rnd, step rnd s = .ok s) ∧ (∀ (f : Nat → Nat) (n : Nat), run f n s = .ok s)) ∧
    (∀ (rnd x j : Nat) (s : Chip8), x < 16 →
      fetchedOp s = 0xF000 + 256 * x + 0x0A →
      s.program_counter + 1 < 4096 →
      j < 16 → s.keys j = true → (∀ i, i < j → s.keys i = false) →
      ∃ s', step rnd s = .ok s' ∧ s'.registers x = j ∧
        s'.program_counter = (s.program_counter + 2) % 65536) ∧
    ((step 0 waitKeyPressedState).toOption.map
      (fun t => (t.registers 0, t.program_counter)) = some (7, 0x202)) := by
  refine ⟨?_, ?_, by decide⟩
  · intro x s hx hop hpc hkeys
    unfold fetchedOp at hop
    have hstep : ∀ rnd, step rnd s = .ok s := by
      intro rnd
      unfold step fetch
      rw [if_pos hpc]
      show execute rnd ((s.memory s.program_counter <<< 8) ||| s.memory (s.program_counter + 1))
        { s with program_counter := (s.program_counter + 2) % 65536 } = .ok s
      rw [hop, execute_waitkey_none rnd x
        { s with program_counter := (s.program_counter + 2) % 65536 } hx
        (fun i hi => hkeys i hi)]
      have he : ((s.program_counter + 2) % 65536 + 65534) % 65536 = s.program_counter := by
        omega
      show Except.ok { s with program_counter := ((s.program_counter + 2) % 65536 + 65534) % 65536 } = .ok s
      rw [he]
    refine ⟨hstep, ?_⟩
    intro f n
    induction n with
    | zero => rfl
    | succ n ih =>
      show (run f n s).bind (step (f n)) = .ok s
      rw [ih]
      show step (f n) s = .ok s
      exact hstep (f n)
  · intro rnd x j s hx hop hpc hj hkey hlow
    unfold fetchedOp at hop
    refine ⟨{ s with program_counter := (s.program_counter + 2) % 65536, registers := Function.update s.registers x j }, ?_, ?_, rfl⟩
    · unfold step fetch
      rw [if_pos hpc]
      show execute rnd ((s.memory s.program_counter <<< 8) ||| s.memory (s.program_counter + 1))
        { s with program_counter := (s.program_counter + 2) % 65536 } = _
      rw [hop, execute_waitkey_some rnd x j
        { s with program_counter := (s.program_counter + 2) % 65536 } hx hj hkey hlow]
    · show Function.update s.registers x j x = j
      rw [Function.update_same]

/-- A fold of pointwise updates leaves unlisted indices unchanged. -/
theorem foldl_update_out (l : List Nat) : ∀ (r : Nat → Nat) (g : Nat → Nat) (j : Nat),
    j ∉ l → (l.foldl (fun acc i => Function.update acc i (g i)) r) j = r j := by
  induction l with
  | nil => intro r g j _; rfl
  | cons a l ih =>
    intro r g j hj
    simp only [List.foldl_cons]
    rw [ih _ _ _ fun h => hj (List.mem_cons_of_mem a h)]
    rw [Function.update_apply,
      if_neg (fun h : j = a => hj (by rw [h]; exact List.mem_cons_self a l))]

/-- FX55 stores reg 0..X at memory[index..index+X] and changes
nothing else. -/
theorem execute_store (rnd x : Nat) (s : Chip8) (hx : x < 16) (hb : s.index + x < 4096) :
    execute rnd (0xF000 + 256 * x + 0x55) s = .ok
      { s with memory := ((List.range (x + 1)).foldl
          (fun m i => Function.update m (s.index + i) (s.registers i)) s.memory) } := by
  have h1 : (0xF000 + 256 * x + 0x55) / 4096 % 16 = 15 := by omega
  have h2 : (0xF000 + 256 * x + 0x55) / 256 % 16 = x := by omega
  have h3 : (0xF000 + 256 * x + 0x55) / 16 % 16 = 5 := by omega
  have h4 : (0xF000 + 256 * x + 0x55) % 16 = 5 := by omega
  simp only [execute, opStore, digit1_eq, digit2_eq, digit3_eq, digit4_eq, h1, h2, h3, h4]
  norm_num
  intro h
  omega

/-- FX65 loads reg 0..X from memory[index..index+X] and changes
nothing else. -/
theorem execute_load (rnd x : Nat) (s : Chip8) (hx : x < 16) (hb : s.index + x < 4096) :
    execute rnd (0xF000 + 256 * x + 0x65) s = .ok
      { s with registers := ((List.range (x + 1)).foldl
          (fun r i => Function.update r i (s.memory (s.index + i))) s.registers) } := by
  have h1 : (0xF000 + 256 * x + 0x65) / 4096 % 16 = 15 := by omega
  have h2 : (0xF000 + 256 * x + 0x65) / 256 % 16 = x := by omega
  have h3 : (0xF000 + 256 * x + 0x65) / 16 % 16 = 6 := by omega
  have h4 : (0xF000 + 256 * x + 0x65) % 16 = 5 := by omega
  simp only [execute, opLoad, digit1_eq, digit2_eq, digit3_eq, digit4_eq, h1, h2, h3, h4]
  norm_num
  intro h
  omega

/-- C10: FX55 and FX65 leave the index register unchanged (no
post-increment), and FX65 leaves every register above X unchanged. -/
theorem claim_C10_bulk_frame :
    (∀ (rnd x : Nat) (s : Chip8), x < 16 → s.index + x < 4096 →
      ∃ s', execute rnd (0xF000 + 256 * x + 0x55) s = .ok s' ∧ s'.index = s.index) ∧
    (∀ (rnd x : Nat) (s : Chip8), x < 16 → s.index + x < 4096 →
      ∃ s', execute rnd (0xF000 + 256 * x + 0x65) s = .ok s' ∧ s'.index = s.index ∧
        ∀ j, x < j → s'.registers j = s.registers j) := by
  constructor
  · intro rnd x s hx hb
    exact ⟨_, execute_store rnd x s hx hb, rfl⟩
  · intro rnd x s hx hb
    refine ⟨_, execute_load rnd x s hx hb, rfl, ?_⟩
    intro j hj
    show ((List.range (x + 1)).foldl
      (fun r i => Function.update r i (s.memory (s.index + i))) s.registers) j = s.registers j
    exact foldl_update_out _ _ _ _ (fun h => by have := List.mem_range.mp h; omega)

/-- Witness for C4: five steps of F00A with no keys pressed leave the
concrete wait-key state fixed. -/
theorem claim_C4_wait_key_witness :
    run (fun _ => 0) 5 waitKeyState = .ok waitKeyState :=
  (claim_C4_wait_key.1 0 waitKeyState (by decide) (by decide) (by decide)
    (by decide)).2 (fun _ => 0) 5

/-- Witness for C10 at X = 1 on a fresh state. -/
theorem claim_C10_bulk_frame_witness :
    (∃ s', execute 0 (0xF000 + 256 * 1 + 0x55) (fromImage []) = .ok s' ∧
      s'.index = (fromImage []).index) ∧
    (∃ s', execute 0 (0xF000 + 256 * 1 + 0x65) (fromImage []) = .ok s' ∧
      s'.index = (fromImage []).index ∧
      ∀ j, 1 < j → s'.registers j = (fromImage []).registers j) :=
  ⟨claim_C10_bulk_frame.1 0 1 (fromImage []) (by decide) (by decide),
   claim_C10_bulk_frame.2 0 1 (fromImage []) (by decide) (by decide)⟩

/-- C9: FX33 stores the hundreds, tens and ones decimal digits of
reg X at memory[index], memory[index+1], memory[index+2] — exactly
the integer digits, despite the source's binary32 arithmetic. -/
theorem claim_C9_bcd_digits :
    ∀ (rnd x : Nat) (s : Chip8), x < 16 → s.registers x < 256 → s.index + 2 < 4096 →
      ∃ s', execute rnd (0xF000 + 256 * x + 0x33) s = .ok s' ∧
        s'.memory s.index = s.registers x / 100 ∧
        s'.memory (s.index + 1) = s.registers x / 10 % 10 ∧
        s'.memory (s.index + 2) = s.registers x % 10 := by
  intro rnd x s hx hv hidx
  have h1 : (0xF000 + 256 * x + 0x33) / 4096 % 16 = 15 := by omega
  have h2 : (0xF000 + 256 * x + 0x33) / 256 % 16 = x := by omega
  have h3 : (0xF000 + 256 * x + 0x33) / 16 % 16 = 3 := by omega
  have h4 : (0xF000 + 256 * x + 0x33) % 16 = 3 := by omega
  have e1 : (s.index + 1) % 65536 = s.index + 1 := by omega
  have e2 : (s.index + 2) % 65536 = s.index + 2 := by omega
  simp only [execute, opBcd, digit1_eq, digit2_eq, digit3_eq, digit4_eq, h1, h2, h3, h4]
  norm_num
  rw [if_pos ⟨by omega, by omega, by omega⟩]
  refine ⟨_, rfl, ?_, ?_, ?_⟩
  · dsimp only
    rw [e1, e2, Function.update_apply, if_neg (by omega), Function.update_apply,
      if_neg (by omega), Function.update_same]
    exact (bcd_digits _ hv).1
  · dsimp only
    rw [e1, e2, Function.update_apply, if_neg (by omega), Function.update_same]
    exact (bcd_digits _ hv).2.1
  · dsimp only
    rw [e1, e2, Function.update_same]
    exact (bcd_digits _ hv).2.2

/-- Witness for C9 at reg2 = 137, index = 0x300. -/
theorem claim_C9_bcd_digits_witness :
    ∃ s', execute 0 (0xF000 + 256 * 2 + 0x33) bcdState = .ok s' ∧
      s'.memory bcdState.index = bcdState.registers 2 / 100 ∧
      s'.memory (bcdState.index + 1) = bcdState.registers 2 / 10 % 10 ∧
      s'.memory (bcdState.index + 2) = bcdState.registers 2 % 10 :=
  claim_C9_bcd_digits 0 2 bcdState (by decide) (by decide) (by decide)

set_option maxHeartbeats 2000000 in
/-- Case analysis of every arm of `execute`: a successful execution
moves the stack pointer by at most one (up only below 16) and sets the
program counter to one of: unchanged, +2, -2 (wrapping), a jump/call
target NNN, reg0 + NNN, or the popped return address. -/
theorem execute_effects (rnd op : Nat) (s s' : Chip8) (h : execute rnd op s = .ok s') :
    (s'.stack_pointer = s.stack_pointer ∨
     (s'.stack_pointer = s.stack_pointer + 1 ∧ s.stack_pointer < 16) ∨
     s'.stack_pointer = s.stack_pointer - 1) ∧
    (s'.program_counter = s.program_counter ∨
     s'.program_counter = (s.program_counter + 2) % 65536 ∨
     s'.program_counter = (s.program_counter + 65534) % 65536 ∨
     (s'.program_counter = op &&& 0xFFF ∧
       ((op &&& 0xF000) >>> 12 = 1 ∨ (op &&& 0xF000) >>> 12 = 2)) ∨
     (s'.program_counter = s.registers 0 + (op &&& 0xFFF) ∧ (op &&& 0xF000) >>> 12 = 0xB) ∨
     (s'.program_counter = s.stack (s.stack_pointer - 1) ∧ s.stack_pointer ≠ 0 ∧
       (op &&& 0xF000) >>> 12 = 0 ∧ (op &&& 0x0F00) >>> 8 = 0 ∧
       (op &&& 0x00F0) >>> 4 = 0xE ∧ op &&& 0x000F = 0xE)) := by
  simp only [execute] at h
  by_cases c1 : (op &&& 0xF000) >>> 12 = 0 ∧ (op &&& 0x0F00) >>> 8 = 0 ∧ (op &&& 0x00F0) >>> 4 = 0 ∧ op &&& 0x000F = 0
  · rw [if_pos c1] at h
    exact Except.noConfusion h
  rw [if_neg c1] at h
  by_cases c2 : (op &&& 0xF000) >>> 12 = 0 ∧ (op &&& 0x0F00) >>> 8 = 0 ∧ (op &&& 0x00F0) >>> 4 = 0xE ∧ op &&& 0x000F = 0
  · rw [if_pos c2] at h
    simp only [opCls, Chip8.push, Chip8.pop] at h
    try split_ifs at h
    all_goals try (cases hfind : findPressed s.keys <;> rw [hfind] at h)
    all_goals try simp only [Except.map] at h
    all_goals try injection h with h
    all_goals first
      | exact Except.noConfusion h
      | (subst h; refine ⟨?_, ?_⟩ <;> (try dsimp only) <;> omega)
  rw [if_neg c2] at h
  by_cases c3 : (op &&& 0xF000) >>> 12 = 0 ∧ (op &&& 0x0F00) >>> 8 = 0 ∧ (op &&& 0x00F0) >>> 4 = 0xE ∧ op &&& 0x000F = 0xE
  · rw [if_pos c3] at h
    simp only [opRet, Chip8.push, Chip8.pop] at h
    try split_ifs at h
    all_goals try (cases hfind : findPressed s.keys <;> rw [hfind] at h)
    all_goals try simp only [Except.map] at h
    all_goals try injection h with h
    all_goals first
      | exact Except.noConfusion h
      | (subst h; refine ⟨?_, ?_⟩ <;> (try dsimp only) <;> omega)
  rw [if_neg c3] at h
  by_cases c4 : (op &&& 0xF000) >>> 12 = 1
  · rw [if_pos c4] at h
    simp only [opJmp, Chip8.push, Chip8.pop] at h
    try split_ifs at h
    all_goals try (cases hfind : findPressed s.keys <;> rw [hfind] at h)
    all_goals try simp only [Except.map] at h
    all_goals try injection h with h
    all_goals first
      | exact Except.noConfusion h
      | (subst h; refine ⟨?_, ?_⟩ <;> (try dsimp only) <;> omega)
  rw [if_neg c4] at h
  by_cases c5 : (op &&& 0xF000) >>> 12 = 2
  · rw [if_pos c5] at h
    simp only [opCall, Chip8.push, Chip8.pop] at h
    try split_ifs at h
    all_goals try (cases hfind : findPressed s.keys <;> rw [hfind] at h)
    all_goals try simp only [Except.map] at h
    all_goals try injection h with h
    all_goals first
      | exact Except.noConfusion h
      | (subst h; refine ⟨?_, ?_⟩ <;> (try dsimp only) <;> omega)
  rw [if_neg c5] at h
  by_cases c6 : (op &&& 0xF000) >>> 12 = 3
  · rw [if_pos c6] at h
    simp only [opSkipEqNN, Chip8.push, Chip8.pop] at h
    try split_ifs at h
    all_goals try (cases hfind : findPressed s.keys <;> rw [hfind] at h)
    all_goals try simp only [Except.map] at h
    all_goals try injection h with h
    all_goals first
      | exact Except.noConfusion h
      | (subst h; refine ⟨?_, ?_⟩ <;> (try dsimp only) <;> omega)
  rw [if_neg c6] at h
  by_cases c7 : (op &&& 0xF000) >>> 12 = 4
  · rw [if_pos c7] at h
    simp only [opSkipNeNN, Chip8.push, Chip8.pop] at h
    try split_ifs at h
    all_goals try (cases hfind : findPressed s.keys <;> rw [hfind] at h)
    all_goals try simp only [Except.map] at h
    all_goals try injection h with h
    all_goals first
      | exact Except.noConfusion h
      | (subst h; refine ⟨?_, ?_⟩ <;> (try dsimp only) <;> omega)
  rw [if_neg c7] at h
  by_cases c8 : (op &&& 0xF000) >>> 12 = 6
  · rw [if_pos c8] at h
    simp only [opSetNN, Chip8.push, Chip8.pop] at h
    try split_ifs at h
    all_goals try (cases hfind : findPressed s.keys <;> rw [hfind] at h)
    all_goals try simp only [Except.map] at h
    all_goals try injection h with h
    all_goals first
      | exact Except.noConfusion h
      | (subst h; refine ⟨?_, ?_⟩ <;> (try dsimp only) <;> omega)
  rw [if_neg c8] at h
  by_cases c9 : (op &&& 0xF000) >>> 12 = 7
  · rw [if_pos c9] at h
    simp only [opAddNN, Chip8.push, Chip8.pop] at h
    try split_ifs at h
    all_goals try (cases hfind : findPressed s.keys <;> rw [hfind] at h)
    all_goals try simp only [Except.map] at h
    all_goals try injection h with h
    all_goals first
      | exact Except.noConfusion h
      | (subst h; refine ⟨?_, ?_⟩ <;> (try dsimp only) <;> omega)
  rw [if_neg c9] at h
  by_cases c10 : (op &&& 0xF000) >>> 12 = 8 ∧ op &&& 0x000F = 0
  · rw [if_pos c10] at h
    simp only [opMov, Chip8.push, Chip8.pop] at h
    try split_ifs at h
    all_goals try (cases hfind : findPressed s.keys <;> rw [hfind] at h)
    all_goals try simp only [Except.map] at h
    all_goals try injection h with h
    all_goals first
      | exact Except.noConfusion h
      | (subst h; refine ⟨?_, ?_⟩ <;> (try dsimp only) <;> omega)
  rw [if_neg c10] at h
  by_cases c11 : (op &&& 0xF000) >>> 12 = 8 ∧ op &&& 0x000F = 1
  · rw [if_pos c11] at h
    simp only [opOr, Chip8.push, Chip8.pop] at h
    try split_ifs at h
    all_goals try (cases hfind : findPressed s.keys <;> rw [hfind] at h)
    all_goals try simp only [Except.map] at h
    all_goals try injection h with h
    all_goals first
      | exact Except.noConfusion h
      | (subst h; refine ⟨?_, ?_⟩ <;> (try dsimp only) <;> omega)
  rw [if_neg c11] at h
  by_cases c12 : (op &&& 0xF000) >>> 12 = 8 ∧ op &&& 0x000F = 2
  · rw [if_pos c12] at h
    simp only [opAnd, Chip8.push, Chip8.pop] at h
    try split_ifs at h
    all_goals try (cases hfind : findPressed s.keys <;> rw [hfind] at h)
    all_goals try simp only [Except.map] at h
    all_goals try injection h with h
    all_goals first
      | exact Except.noConfusion h
      | (subst h; refine ⟨?_, ?_⟩ <;> (try dsimp only) <;> omega)
  rw [if_neg c12] at h
  by_cases c13 : (op &&& 0xF000) >>> 12 = 8 ∧ op &&& 0x000F = 3
  · rw [if_pos c13] at h
    simp only [opXor, Chip8.push, Chip8.pop] at h
    try split_ifs at h
    all_goals try (cases hfind : findPressed s.keys <;> rw [hfind] at h)
    all_goals try simp only [Except.map] at h
    all_goals try injection h with h
    all_goals first
      | exact Except.noConfusion h
      | (subst h; refine ⟨?_, ?_⟩ <;> (try dsimp only) <;> omega)
  rw [if_neg c13] at h
  by_cases c14 : (op &&& 0xF000) >>> 12 = 8 ∧ op &&& 0x000F = 4
  · rw [if_pos c14] at h
    simp only [opAddCarry, Chip8.push, Chip8.pop] at h
    try split_ifs at h
    all_goals try (cases hfind : findPressed s.keys <;> rw [hfind] at h)
    all_goals try simp only [Except.map] at h
    all_goals try injection h with h
    all_goals first
      | exact Except.noConfusion h
      | (subst h; refine ⟨?_, ?_⟩ <;> (try dsimp only) <;> omega)
  rw [if_neg c14] at h
  by_cases c15 : (op &&& 0xF000) >>> 12 = 8 ∧ op &&& 0x000F = 5
  · rw [if_pos c15] at h
    simp only [opSubBorrow, Chip8.push, Chip8.pop] at h
    try split_ifs at h
    all_goals try (cases hfind : findPressed s.keys <;> rw [hfind] at h)
    all_goals try simp only [Except.map] at h
    all_goals try injection h with h
    all_goals first
      | exact Except.noConfusion h
      | (subst h; refine ⟨?_, ?_⟩ <;> (try dsimp only) <;> omega)
  rw [if_neg c15] at h
  by_cases c16 : (op &&& 0xF000) >>> 12 = 8 ∧ op &&& 0x000F = 6
  · rw [if_pos c16] at h
    simp only [opShr, Chip8.push, Chip8.pop] at h
    try split_ifs at h
    all_goals try (cases hfind : findPressed s.keys <;> rw [hfind] at h)
    all_goals try simp only [Except.map] at h
    all_goals try injection h with h
    all_goals first
      | exact Except.noConfusion h
      | (subst h; refine ⟨?_, ?_⟩ <;> (try dsimp only) <;> omega)
  rw [if_neg c16] at h
  by_cases c17 : (op &&& 0xF000) >>> 12 = 8 ∧ op &&& 0x000F = 7
  · rw [if_pos c17] at h
    simp only [opSubRev, Chip8.push, Chip8.pop] at h
    try split_ifs at h
    all_goals try (cases hfind : findPressed s.keys <;> rw [hfind] at h)
    all_goals try simp only [Except.map] at h
    all_goals try injection h with h
    all_goals first
      | exact Except.noConfusion h
      | (subst h; refine ⟨?_, ?_⟩ <;> (try dsimp only) <;> omega)
  rw [if_neg c17] at h
  by_cases c18 : (op &&& 0xF000) >>> 12 = 8 ∧ op &&& 0x000F = 0xE
  · rw [if_pos c18] at h
    simp only [opShl, Chip8.push, Chip8.pop] at h
    try split_ifs at h
    all_goals try (cases hfind : findPressed s.keys <;> rw [hfind] at h)
    all_goals try simp only [Except.map] at h
    all_goals try injection h with h
    all_goals first
      | exact Except.noConfusion h
      | (subst h; refine ⟨?_, ?_⟩ <;> (try dsimp only) <;> omega)
  rw [if_neg c18] at h
  by_cases c19 : (op &&& 0xF000) >>> 12 = 9 ∧ op &&& 0x000F = 0
  · rw [if_pos c19] at h
    simp only [opSkipNeReg, Chip8.push, Chip8.pop] at h
    try split_ifs at h
    all_goals try (cases hfind : findPressed s.keys <;> rw [hfind] at h)
    all_goals try simp only [Except.map] at h
    all_goals try injection h with h
    all_goals first
      | exact Except.noConfusion h
      | (subst h; refine ⟨?_, ?_⟩ <;> (try dsimp only) <;> omega)
  rw [if_neg c19] at h
  by_cases c20 : (op &&& 0xF000) >>> 12 = 0xA
  · rw [if_pos c20] at h
    simp only [opSetIndex, Chip8.push, Chip8.pop] at h
    try split_ifs at h
    all_goals try (cases hfind : findPressed s.keys <;> rw [hfind] at h)
    all_goals try simp only [Except.map] at h
    all_goals try injection h with h
    all_goals first
      | exact Except.noConfusion h
      | (subst h; refine ⟨?_, ?_⟩ <;> (try dsimp only) <;> omega)
  rw [if_neg c20] at h
  by_cases c21 : (op &&& 0xF000) >>> 12 = 0xB
  · rw [if_pos c21] at h
    simp only [opJmpV0, Chip8.push, Chip8.pop] at h
    try split_ifs at h
    all_goals try (cases hfind : findPressed s.keys <;> rw [hfind] at h)
    all_goals try simp only [Except.map] at h
    all_goals try injection h with h
    all_goals first
      | exact Except.noConfusion h
      | (subst h; refine ⟨?_, ?_⟩ <;> (try dsimp only) <;> omega)
  rw [if_neg c21] at h
  by_cases c22 : (op &&& 0xF000) >>> 12 = 0xC
  · rw [if_pos c22] at h
    simp only [opRand, Chip8.push, Chip8.pop] at h
    try split_ifs at h
    all_goals try (cases hfind : findPressed s.keys <;> rw [hfind] at h)
    all_goals try simp only [Except.map] at h
    all_goals try injection h with h
    all_goals first
      | exact Except.noConfusion h
      | (subst h; refine ⟨?_, ?_⟩ <;> (try dsimp only) <;> omega)
  rw [if_neg c22] at h
  by_cases c23 : (op &&& 0xF000) >>> 12 = 0xD
  · rw [if_pos c23] at h
    simp only [opDraw, Chip8.push, Chip8.pop] at h
    try split_ifs at h
    all_goals try (cases hfind : findPressed s.keys <;> rw [hfind] at h)
    all_goals try simp only [Except.map] at h
    all_goals try injection h with h
    all_goals first
      | exact Except.noConfusion h
      | (subst h; refine ⟨?_, ?_⟩ <;> (try dsimp only) <;> omega)
  rw [if_neg c23] at h
  by_cases c24 : (op &&& 0xF000) >>> 12 = 0xE ∧ (op &&& 0x00F0) >>> 4 = 9 ∧ op &&& 0x000F = 0xE
  · rw [if_pos c24] at h
    simp only [opSkipKey, Chip8.push, Chip8.pop] at h
    try split_ifs at h
    all_goals try (cases hfind : findPressed s.keys <;> rw [hfind] at h)
    all_goals try simp only [Except.map] at h
    all_goals try injection h with h
    all_goals first
      | exact Except.noConfusion h
      | (subst h; refine ⟨?_, ?_⟩ <;> (try dsimp only) <;> omega)
  rw [if_neg c24] at h
  by_cases c25 : (op &&& 0xF000) >>> 12 = 0xE ∧ (op &&& 0x00F0) >>> 4 = 0xA ∧ op &&& 0x000F = 1
  · rw [if_pos c25] at h
    simp only [opSkipNoKey, Chip8.push, Chip8.pop] at h
    try split_ifs at h
    all_goals try (cases hfind : findPressed s.keys <;> rw [hfind] at h)
    all_goals try simp only [Except.map] at h
    all_goals try injection h with h
    all_goals first
      | exact Except.noConfusion h
      | (subst h; refine ⟨?_, ?_⟩ <;> (try dsimp only) <;> omega)
  rw [if_neg c25] at h
  by_cases c26 : (op &&& 0xF000) >>> 12 = 0xF ∧ (op &&& 0x00F0) >>> 4 = 0 ∧ op &&& 0x000F = 7
  · rw [if_pos c26] at h
    simp only [opGetDelay, Chip8.push, Chip8.pop] at h
    try split_ifs at h
    all_goals try (cases hfind : findPressed s.keys <;> rw [hfind] at h)
    all_goals try simp only [Except.map] at h
    all_goals try injection h with h
    all_goals first
      | exact Except.noConfusion h
      | (subst h; refine ⟨?_, ?_⟩ <;> (try dsimp only) <;> omega)
  rw [if_neg c26] at h
  by_cases c27 : (op &&& 0xF000) >>> 12 = 0xF ∧ (op &&& 0x00F0) >>> 4 = 0 ∧ op &&& 0x000F = 0xA
  · rw [if_pos c27] at h
    simp only [opWaitKey, Chip8.push, Chip8.pop] at h
    try split_ifs at h
    all_goals try (cases hfind : findPressed s.keys <;> rw [hfind] at h)
    all_goals try simp only [Except.map] at h
    all_goals try injection h with h
    all_goals first
      | exact Except.noConfusion h
      | (subst h; refine ⟨?_, ?_⟩ <;> (try dsimp only) <;> omega)
  rw [if_neg c27] at h
  by_cases c28 : (op &&& 0xF000) >>> 12 = 0xF ∧ (op &&& 0x00F0) >>> 4 = 1 ∧ op &&& 0x000F = 5
  · rw [if_pos c28] at h
    simp only [opSetDelay, Chip8.push, Chip8.pop] at h
    try split_ifs at h
    all_goals try (cases hfind : findPressed s.keys <;> rw [hfind] at h)
    all_goals try simp only [Except.map] at h
    all_goals try injection h with h
    all_goals first
      | exact Except.noConfusion h
      | (subst h; refine ⟨?_, ?_⟩ <;> (try dsimp only) <;> omega)
  rw [if_neg c28] at h
  by_cases c29 : (op &&& 0xF000) >>> 12 = 0xF ∧ (op &&& 0x00F0) >>> 4 = 1 ∧ op &&& 0x000F = 8
  · rw [if_pos c29] at h
    simp only [opSetSound, Chip8.push, Chip8.pop] at h
    try split_ifs at h
    all_goals try (cases hfind : findPressed s.keys <;> rw [hfind] at h)
    all_goals try simp only [Except.map] at h
    all_goals try injection h with h
    all_goals first
      | exact Except.noConfusion h
      | (subst h; refine ⟨?_, ?_⟩ <;> (try dsimp only) <;> omega)
  rw [if_neg c29] at h
  by_cases c30 : (op &&& 0xF000) >>> 12 = 0xF ∧ (op &&& 0x00F0) >>> 4 = 1 ∧ op &&& 0x000F = 0xE
  · rw [if_pos c30] at h
    simp only [opAddIndex, Chip8.push, Chip8.pop] at h
    try split_ifs at h
    all_goals try (cases hfind : findPressed s.keys <;> rw [hfind] at h)
    all_goals try simp only [Except.map] at h
    all_goals try injection h with h
    all_goals first
      | exact Except.noConfusion h
      | (subst h; refine ⟨?_, ?_⟩ <;> (try dsimp only) <;> omega)
  rw [if_neg c30] at h
  by_cases c31 : (op &&& 0xF000) >>> 12 = 0xF ∧ (op &&& 0x00F0) >>> 4 = 2 ∧ op &&& 0x000F = 9
  · rw [if_pos c31] at h
    simp only [opFont, Chip8.push, Chip8.pop] at h
    try split_ifs at h
    all_goals try (cases hfind : findPressed s.keys <;> rw [hfind] at h)
    all_goals try simp only [Except.map] at h
    all_goals try injection h with h
    all_goals first
      | exact Except.noConfusion h
      | (subst h; refine ⟨?_, ?_⟩ <;> (try dsimp only) <;> omega)
  rw [if_neg c31] at h
  by_cases c32 : (op &&& 0xF000) >>> 12 = 0xF ∧ (op &&& 0x00F0) >>> 4 = 3 ∧ op &&& 0x000F = 3
  · rw [if_pos c32] at h
    simp only [opBcd, Chip8.push, Chip8.pop] at h
    try split_ifs at h
    all_goals try (cases hfind : findPressed s.keys <;> rw [hfind] at h)
    all_goals try simp only [Except.map] at h
    all_goals try injection h with h
    all_goals first
      | exact Except.noConfusion h
      | (subst h; refine ⟨?_, ?_⟩ <;> (try dsimp only) <;> omega)
  rw [if_neg c32] at h
  by_cases c33 : (op &&& 0xF000) >>> 12 = 0xF ∧ (op &&& 0x00F0) >>> 4 = 5 ∧ op &&& 0x000F = 5
  · rw [if_pos c33] at h
    simp only [opStore, Chip8.push, Chip8.pop] at h
    try split_ifs at h
    all_goals try (cases hfind : findPressed s.keys <;> rw [hfind] at h)
    all_goals try simp only [Except.map] at h
    all_goals try injection h with h
    all_goals first
      | exact Except.noConfusion h
      | (subst h; refine ⟨?_, ?_⟩ <;> (try dsimp only) <;> omega)
  rw [if_neg c33] at h
  by_cases c34 : (op &&& 0xF000) >>> 12 = 0xF ∧ (op &&& 0x00F0) >>> 4 = 6 ∧ op &&& 0x000F = 5
  · rw [if_pos c34] at h
    simp only [opLoad, Chip8.push, Chip8.pop] at h
    try split_ifs at h
    all_goals try (cases hfind : findPressed s.keys <;> rw [hfind] at h)
    all_goals try simp only [Except.map] at h
    all_goals try injection h with h
    all_goals first
      | exact Except.noConfusion h
      | (subst h; refine ⟨?_, ?_⟩ <;> (try dsimp only) <;> omega)
  rw [if_neg c34] at h
  exact Except.noConfusion h

/-- A successful execution keeps the stack pointer within [0,16]. -/
theorem execute_sp_le (rnd op : Nat) (s s' : Chip8) (h : execute rnd op s = .ok s')
    (hs : s.stack_pointer ≤ 16) : s'.stack_pointer ≤ 16 := by
  rcases (execute_effects rnd op s s' h).1 with h1 | ⟨h1, h2⟩ | h1 <;> omega

/-- A successful fetch/execute step keeps the stack pointer within
[0,16]. -/
theorem step_sp_le (rnd : Nat) (s s' : Chip8) (h : step rnd s = .ok s')
    (hs : s.stack_pointer ≤ 16) : s'.stack_pointer ≤ 16 := by
  unfold step fetch at h
  split_ifs at h
  · exact execute_sp_le rnd _ _ s' h hs
  · exact Except.noConfusion h

/-- A successful run keeps the stack pointer within [0,16]. -/
theorem run_sp_le (f : Nat → Nat) : ∀ (n : Nat) (s s' : Chip8),
    run f n s = .ok s' → s.stack_pointer ≤ 16 → s'.stack_pointer ≤ 16 := by
  intro n
  induction n with
  | zero =>
    intro s s' h hs
    injection h with h
    subst h
    exact hs
  | succ n ih =>
    intro s s' h hs
    have h2 : (run f n s).bind (step (f n)) = .ok s' := h
    cases hr : run f n s with
    | error e =>
      rw [hr] at h2
      exact Except.noConfusion h2
    | ok t =>
      rw [hr] at h2
      exact step_sp_le (f n) t s' h2 (ih s t hr hs)

/-- A call with a full stack fails with the stack-overflow panic. -/
theorem execute_call_overflow (rnd a : Nat) (s : Chip8) (hsp : s.stack_pointer = 16) :
    execute rnd (0x2000 + a % 4096) s = .error .stackOverflow := by
  have h1 : (0x2000 + a % 4096) / 4096 % 16 = 2 := by omega
  simp only [execute, opCall, digit1_eq, digit2_eq, digit3_eq, digit4_eq, h1, Chip8.push]
  norm_num
  rw [if_neg (by omega)]
  rfl

/-- A return with an empty stack fails with the underflow panic. -/
theorem execute_ret_underflow (rnd : Nat) (s : Chip8) (hsp : s.stack_pointer = 0) :
    execute rnd 0x00EE s = .error .stackUnderflow := by
  simp only [execute, opRet, digit1_eq, digit2_eq, digit3_eq, digit4_eq, Chip8.pop]
  norm_num
  rw [if_pos hsp]
  rfl

/-- C6: in every state reachable by running the interpreter from a
freshly loaded image, the stack pointer lies in [0,16]; a call (2NNN)
executed with the stack pointer at 16 is the fatal stack-overflow
panic, and a return (00EE) with an empty stack is the fatal underflow
panic — neither silently wraps or corrupts state. -/
theorem claim_C6_stack_bounds :
    (∀ (data : List Nat) (f : Nat → Nat) (n : Nat) (s' : Chip8),
      run f n (fromImage data) = .ok s' → s'.stack_pointer ≤ 16) ∧
    (∀ (rnd a : Nat) (s : Chip8), s.stack_pointer = 16 →
      execute rnd (0x2000 + a % 4096) s = .error .stackOverflow) ∧
    (∀ (rnd : Nat) (s : Chip8), s.stack_pointer = 0 →
      execute rnd 0x00EE s = .error .stackUnderflow) :=
  ⟨fun data f n s' h => run_sp_le f n (fromImage data) s' h (by show (0 : Nat) ≤ 16; omega),
   execute_call_overflow, execute_ret_underflow⟩

/-- Witness for C6 at concrete states. -/
theorem claim_C6_stack_bounds_witness :
    (fromImage []).stack_pointer ≤ 16 ∧
    execute 0 (0x2000 + 0x300 % 4096) fullStackState = .error .stackOverflow ∧
    execute 0 0x00EE (fromImage []) = .error .stackUnderflow :=
  ⟨claim_C6_stack_bounds.1 [] (fun _ => 0) 0 (fromImage []) rfl,
   claim_C6_stack_bounds.2.1 0 0x300 fullStackState rfl,
   claim_C6_stack_bounds.2.2 0 (fromImage []) rfl⟩

/-- A successful execution of an instruction whose control transfer
(if any) targets an even address preserves evenness of the program
counter. -/
theorem execute_pc_even (rnd op : Nat) (s s' : Chip8)
    (h : execute rnd op s = .ok s')
    (hpc : s.program_counter % 2 = 0)
    (h12 : ((op &&& 0xF000) >>> 12 = 1 ∨ (op &&& 0xF000) >>> 12 = 2) →
      (op &&& 0xFFF) % 2 = 0)
    (hB : (op &&& 0xF000) >>> 12 = 0xB → (s.registers 0 + (op &&& 0xFFF)) % 2 = 0)
    (hR : (op &&& 0xF000) >>> 12 = 0 ∧ (op &&& 0x0F00) >>> 8 = 0 ∧
        (op &&& 0x00F0) >>> 4 = 0xE ∧ op &&& 0x000F = 0xE →
      s.stack_pointer ≠ 0 → s.stack (s.stack_pointer - 1) % 2 = 0) :
    s'.program_counter % 2 = 0 := by
  rcases (execute_effects rnd op s s' h).2 with
    h1 | h1 | h1 | ⟨h1, h2⟩ | ⟨h1, h2⟩ | ⟨h1, h2, h3, h4, h5, h6⟩
  · omega
  · omega
  · omega
  · rw [h1]
    exact h12 h2
  · rw [h1]
    exact hB h2
  · rw [h1]
    exact hR ⟨h3, h4, h5, h6⟩ h2

/-- A successful fetch/execute step from an even program counter with
an even control transfer lands on an even program counter. -/
theorem step_pc_even (rnd : Nat) (s s' : Chip8) (h : step rnd s = .ok s')
    (hpc : s.program_counter % 2 = 0) (ht : transferEven s) :
    s'.program_counter % 2 = 0 := by
  obtain ⟨h12, hB, hR⟩ := ht
  unfold fetchedOp at h12 hB hR
  unfold step fetch at h
  split_ifs at h
  · exact execute_pc_even rnd _ _ s' h
      (by show (s.program_counter + 2) % 65536 % 2 = 0; omega) h12 hB hR
  · exact Except.noConfusion h

/-- A run whose every executed transfer targets an even address keeps
an even program counter. -/
theorem run_pc_even (f : Nat → Nat) : ∀ (n : Nat) (s s' : Chip8),
    run f n s = .ok s' → s.program_counter % 2 = 0 →
    (∀ k t, k < n → run f k s = .ok t → transferEven t) →
    s'.program_counter % 2 = 0 := by
  intro n
  induction n with
  | zero =>
    intro s s' h hpc _
    injection h with h
    subst h
    exact hpc
  | succ n ih =>
    intro s s' h hpc hT
    have h2 : (run f n s).bind (step (f n)) = .ok s' := h
    cases hr : run f n s with
    | error e =>
      rw [hr] at h2
      exact Except.noConfusion h2
    | ok t =>
      rw [hr] at h2
      exact step_pc_even (f n) t s' h2
        (ih s t hr hpc fun k u hk hu => hT k u (by omega) hu)
        (hT n t (by omega) hr)

/-- C8: starting from a freshly loaded image (program counter 0x200),
in any run in which no executed jump, call, offset jump or return
transfers control to an odd address, the program counter is even after
every step (and hence before every step of the run). -/
theorem claim_C8_pc_even :
    ∀ (data : List Nat) (f : Nat → Nat) (n : Nat) (s' : Chip8),
      run f n (fromImage data) = .ok s' →
      (∀ k t, k < n → run f k (fromImage data) = .ok t → transferEven t) →
      s'.program_counter % 2 = 0 :=
  fun data f n s' h hT =>
    run_pc_even f n (fromImage data) s' h (by show 512 % 2 = 0; norm_num) hT

/-- Witness for C8: three steps of a program that jumps to its own
even start address. -/
theorem claim_C8_pc_even_witness : loopState.program_counter % 2 = 0 :=
  claim_C8_pc_even [0x12, 0x00] (fun _ => 0) 3 loopState rfl
    (by
      intro k t hk ht
      interval_cases k <;> (injection ht with ht; subst ht; decide))

end Chip8Spec
